import Mathlib

/-!
Shallow embedding of the dphpc_lmq micro-benchmark kernels
(src/src/onnx/sin.c, src/src/onnx/sigmoid.c,
src/src/benchmark/benchmark_mem_versus_l1.c).

Memory is modelled as total functions from indices to values; a C loop
that stores into successive cells becomes an iterated pointwise update.
Scalar math routines (sinf) that the kernels call as black boxes are
abstracted as an arbitrary function parameter.  Floating-point values in
the sigmoid stream kernel are modelled by an idealized value domain with
exact rational finite values plus positive infinity and NaN, with the
IEEE-754 special-value rules for the additions and divisions the kernel
performs.  Statuses of the C functions (declared int) are modelled as
Option Int: some 0 for an explicit return 0, none when the function
falls off the end without a return statement.
-/

namespace LMQ

/-- Iterated update modelling the C loop
for (i = 0; i < m; i++) result[off + i] = f(arr[off + i]). -/
def loopMap {α β : Type} (f : α → β) (arr : ℕ → α) (off : ℕ) : ℕ → (ℕ → β) → (ℕ → β)
  | 0, result => result
  | m + 1, result =>
      Function.update (loopMap f arr off m result) (off + m) (f (arr (off + m)))

/-- The work-partition data computed (inline) by sin_parallel / sin_ssr_parallel /
sin_ssr_omp (sin.c lines 107-126, 129-193, 252-333).  Matches spec section 4.1's
Partition Result record. -/
structure PartitionResult where
  local_length : ℕ
  local_offset : ℕ
  has_extra_element : Bool
  extra_index : ℕ
deriving DecidableEq

/-- Embeds the partition arithmetic of sin_parallel (sin.c lines 110-123):
local_n = n / core_num; do_extra = core_idx < n - local_n * core_num;
loop base core_idx * local_n; extra element at core_num * local_n + core_idx. -/
def partition (n C i : ℕ) : PartitionResult :=
  let local_n := n / C
  { local_length := local_n
    local_offset := i * local_n
    has_extra_element := decide (i < n - local_n * C)
    extra_index := C * local_n + i }

/-- The set of flat indices core i writes: its contiguous local range plus the
optional extra index. -/
def assignedIndices (n C i : ℕ) : Finset ℕ :=
  Finset.Ico (partition n C i).local_offset
      ((partition n C i).local_offset + (partition n C i).local_length) ∪
    (if (partition n C i).has_extra_element = true
      then {(partition n C i).extra_index} else ∅)

/-- sin_baseline (sin.c lines 15-20): result[i] = sinf(arr[i]) for i < n; returns 0.
The scalar routine sinf is abstracted as f. -/
def sin_baseline {α : Type} (f : α → α) (arr : ℕ → α) (n : ℕ) (result : ℕ → α) :
    (ℕ → α) × Option ℤ :=
  (loopMap f arr 0 n result, some 0)

/-- sin_ssr (sin.c lines 23-91): the stream region consumes arr[i] from the read
stream, calls sinf, produces the value into the write stream, for exactly n
iterations; semantically result[i] = sinf(arr[i]) for i < n; returns 0. -/
def sin_ssr {α : Type} (f : α → α) (arr : ℕ → α) (n : ℕ) (result : ℕ → α) :
    (ℕ → α) × Option ℤ :=
  (loopMap f arr 0 n result, some 0)

/-- sin_omp (sin.c lines 208-214): an OpenMP statically scheduled loop writing
result[i] = sinf(arr[i]) for every i < n; returns 0. -/
def sin_omp {α : Type} (f : α → α) (arr : ℕ → α) (n : ℕ) (result : ℕ → α) :
    (ℕ → α) × Option ℤ :=
  (loopMap f arr 0 n result, some 0)

/-- sin_parallel (sin.c lines 107-126) as executed by one core.  core_num models
the value snrt_cluster_core_num() - 1 and core_idx the core's index; the loop
writes result[core_idx * local_n + i] = sinf(arr[core_idx * local_n + i]) for
i < local_n, then, when do_extra, writes the extra element at
core_num * local_n + core_idx; returns 0. -/
def sin_parallel {α : Type} (f : α → α) (core_num core_idx : ℕ) (arr : ℕ → α)
    (n : ℕ) (result : ℕ → α) : (ℕ → α) × Option ℤ :=
  let local_n := n / core_num
  let r := loopMap f arr (core_idx * local_n) local_n result
  (if core_idx < n - local_n * core_num
    then Function.update r (core_num * local_n + core_idx)
      (f (arr (core_num * local_n + core_idx)))
    else r, some 0)

/-- sin_ssr_parallel (sin.c lines 129-193) as executed by one core: stream
descriptors scoped to the core's local range, the same per-element computation,
then the extra element written with the scalar routine; returns 0. -/
def sin_ssr_parallel {α : Type} (f : α → α) (core_num core_idx : ℕ) (arr : ℕ → α)
    (n : ℕ) (result : ℕ → α) : (ℕ → α) × Option ℤ :=
  let local_n := n / core_num
  let r := loopMap f arr (core_idx * local_n) local_n result
  (if core_idx < n - local_n * core_num
    then Function.update r (core_num * local_n + core_idx)
      (f (arr (core_num * local_n + core_idx)))
    else r, some 0)

/-- The double constant M_PI from sin.c line 8, as an exact rational. -/
def M_PI : ℚ := 314159265358979323846 / 100000000000000000000

/-- The C cast (int)q: truncation toward zero of a rational value (floor for
non-negative values, ceiling for negative ones). -/
def cIntCast (q : ℚ) : ℤ := if 0 ≤ q then ⌊q⌋ else ⌈q⌉

/-- sin_baseline_lookup_table (sin.c lines 199-204):
factor = lookup_table_size / M_PI * 2.0;
result[i] = lookup_table[(int)(arr[i] * factor)] for i < n.
The table is modelled as a total function on Int because the index expression
is unchecked and may fall outside [0, table_size).  The function is declared
int but has no return statement, so its status is modelled as none. -/
def sin_baseline_lookup_table (arr : ℕ → ℚ) (n : ℕ) (result : ℕ → ℚ)
    (lookup_table : ℤ → ℚ) (lookup_table_size : ℕ) : (ℕ → ℚ) × Option ℤ :=
  let factor : ℚ := (lookup_table_size : ℚ) / M_PI * 2
  (loopMap (fun x => lookup_table (cIntCast (x * factor))) arr 0 n result, none)

/-- Modelled from the spec: the claim's own formula for the scalar lookup
strategy, output[i] = table[floor(input[i] * domain_scale)] with
domain_scale = size / (2 * pi); written only to be compared against the
source-derived sin_baseline_lookup_table. -/
def sin_lookup_table_specModel (arr : ℕ → ℚ) (n : ℕ) (result : ℕ → ℚ)
    (lookup_table : ℤ → ℚ) (lookup_table_size : ℕ) : ℕ → ℚ :=
  let domain_scale : ℚ := (lookup_table_size : ℚ) / (2 * M_PI)
  loopMap (fun x => lookup_table ⌊x * domain_scale⌋) arr 0 n result

/-- sin_ssr_lookup_table (sin.c lines 217-250): the entire compute loop
(lines 232-244) is commented out, so the function only configures and
enables/disables the streams, writes no element of result, never reads the
table, and returns 0. -/
def sin_ssr_lookup_table (arr : ℕ → ℚ) (n : ℕ) (result : ℕ → ℚ)
    (lookup_table : ℤ → ℚ) (lookup_table_size : ℕ) : (ℕ → ℚ) × Option ℤ :=
  (result, some 0)

/-- Idealized floating-point value domain for the sigmoid kernels: exact
rational finite values, positive infinity (the only infinity exp can return),
and NaN. -/
inductive FP where
  | nan : FP
  | inf : FP
  | fin : ℚ → FP
deriving DecidableEq

/-- IEEE-754 addition restricted to this domain: NaN propagates, inf + finite
and inf + inf are inf, finite values add exactly. -/
def fadd : FP → FP → FP
  | FP.nan, _ => FP.nan
  | _, FP.nan => FP.nan
  | FP.inf, _ => FP.inf
  | _, FP.inf => FP.inf
  | FP.fin a, FP.fin b => FP.fin (a + b)

/-- IEEE-754 division restricted to this domain: NaN propagates, inf/inf and
0/0 are NaN, finite/inf is 0, nonzero/0 and inf/finite are inf, finite values
divide exactly. -/
def fdiv : FP → FP → FP
  | FP.nan, _ => FP.nan
  | _, FP.nan => FP.nan
  | FP.inf, FP.inf => FP.nan
  | FP.inf, FP.fin _ => FP.inf
  | FP.fin _, FP.inf => FP.fin 0
  | FP.fin a, FP.fin b =>
      if b = 0 then (if a = 0 then FP.nan else FP.inf) else FP.fin (a / b)

/-- The per-element register sequence of sigmoid_ssr (sigmoid.c lines 69-74),
applied to e = exp(-x):
fdiv.d ft2, fa0, fa0 fabricates the constant 1 as e / e;
fadd.d fa0, ft2, fa0 computes ft2 + e;
fdiv.d ft1, ft2, fa0 stores ft2 / (ft2 + e) into the write stream. -/
def sigmoid_ssr_elem (e : FP) : FP :=
  let ft2 := fdiv e e
  let fa0 := fadd ft2 e
  fdiv ft2 fa0

/-- The per-element computation of sigmoid_baseline (sigmoid.c line 12),
1 / (1 + e) with e = exp(-x), over the same idealized value domain. -/
def sigmoid_baseline_elem (e : FP) : FP :=
  fdiv (FP.fin 1) (fadd (FP.fin 1) e)

/-- sigmoid_baseline (sigmoid.c lines 10-16): result[i] = 1/(1 + exp(-arr[i]))
for i < n; returns 0.  The C library exp is abstracted as expf. -/
def sigmoid_baseline (expf : ℚ → FP) (arr : ℕ → ℚ) (n : ℕ) (result : ℕ → FP) :
    (ℕ → FP) × Option ℤ :=
  (loopMap (fun x => sigmoid_baseline_elem (expf (-x))) arr 0 n result, some 0)

/-- sigmoid_ssr (sigmoid.c lines 19-81): per streamed element, fneg.d negates
the input, exp is called on it, and the register sequence of
sigmoid_ssr_elem produces the stored value; returns 0. -/
def sigmoid_ssr (expf : ℚ → FP) (arr : ℕ → ℚ) (n : ℕ) (result : ℕ → FP) :
    (ℕ → FP) × Option ℤ :=
  (loopMap (fun x => sigmoid_ssr_elem (expf (-x))) arr 0 n result, some 0)

/-- sigmoid_ssr_frep (sigmoid.c lines 84-91): empty body, returns 0. -/
def sigmoid_ssr_frep (expf : ℚ → FP) (arr : ℕ → ℚ) (n : ℕ) (result : ℕ → FP) :
    (ℕ → FP) × Option ℤ :=
  (result, some 0)

/-- The stream-descriptor configuration and instruction counts of one SSR
region: configured read length, configured write length, loop iterations
executed, and stream consumes/produces issued per iteration. -/
structure SSRTrace where
  read_len : ℕ
  write_len : ℕ
  iterations : ℕ
  consumes_per_iter : ℕ
  produces_per_iter : ℕ
deriving DecidableEq

/-- sin_ssr's stream shape (sin.c lines 24-30, 49, 51, 82): both descriptors
configured with length n, n iterations, one ft0 consume (fmv.s fa0, ft0) and
one ft1 produce (fmv.s ft1, fa0) per iteration. -/
def sin_ssr_trace (n : ℕ) : SSRTrace :=
  { read_len := n, write_len := n, iterations := n
    consumes_per_iter := 1, produces_per_iter := 1 }

/-- sigmoid_ssr's stream shape (sigmoid.c lines 26-33, 37, 39, 72): both
descriptors length n, n iterations, one ft0 consume (fneg.d fa0, ft0) and one
ft1 produce (fdiv.d ft1, ...) per iteration. -/
def sigmoid_ssr_trace (n : ℕ) : SSRTrace :=
  { read_len := n, write_len := n, iterations := n
    consumes_per_iter := 1, produces_per_iter := 1 }

/-- sin_ssr_parallel's stream shape (sin.c lines 139-147): both descriptors
length local_n = n / core_num, local_n iterations, one consume and one produce
per iteration. -/
def sin_ssr_parallel_trace (n core_num : ℕ) : SSRTrace :=
  let local_n := n / core_num
  { read_len := local_n, write_len := local_n, iterations := local_n
    consumes_per_iter := 1, produces_per_iter := 1 }

/-- sin_ssr_omp's stream shape (sin.c lines 268-274, 285, 287, 318): the read
descriptor is configured with length local_n but the write descriptor with
length local_n + 1 (line 272), while the loop executes local_n iterations with
one consume and one produce each. -/
def sin_ssr_omp_trace (n core_num : ℕ) : SSRTrace :=
  let local_n := n / core_num
  { read_len := local_n, write_len := local_n + 1, iterations := local_n
    consumes_per_iter := 1, produces_per_iter := 1 }

/-- The core-0 path of benchmark_mem_versus_l1.c's main (lines 14-41):
memory_x[i] = i - 20.0; the first timed loop copies memory_x into
memory_target; memory_l1 is then allocated in L1; the second timed loop again
copies memory_x (not memory_l1) into memory_target_from_l1.  Returns the two
buffers after the timed loops; memory_l1 is a parameter only to show it is
never read. -/
def benchmark_mem_versus_l1 (size : ℕ)
    (memory_target memory_target_from_l1 memory_l1 : ℕ → ℚ) :
    (ℕ → ℚ) × (ℕ → ℚ) :=
  let memory_x : ℕ → ℚ := fun i => (i : ℚ) - 20
  let target_after := loopMap (fun x => x) memory_x 0 size memory_target
  let from_l1_after := loopMap (fun x => x) memory_x 0 size memory_target_from_l1
  (target_after, from_l1_after)

theorem loopMap_apply {α β : Type} (f : α → β) (arr : ℕ → α) (off m : ℕ)
    (result : ℕ → β) (k : ℕ) :
    loopMap f arr off m result k =
      if off ≤ k ∧ k < off + m then f (arr k) else result k := by
  induction m with
  | zero =>
    simp only [loopMap]
    rw [if_neg (by omega)]
  | succ m ih =>
    simp only [loopMap, Function.update_apply]
    by_cases hk : k = off + m
    · subst hk
      rw [if_pos rfl, if_pos (by omega)]
    · rw [if_neg hk, ih]
      by_cases h1 : off ≤ k ∧ k < off + m
      · rw [if_pos h1, if_pos (by omega)]
      · rw [if_neg h1, if_neg (by omega)]

/-- Claim C2: the work partition gives core i local_length = n / C,
local_offset = i * (n / C), has_extra_element iff i < R where
R = n - (n / C) * C (which equals n % C), and the extra element at flat index
(n / C) * C + i; in particular for n = 10, C = 3 every core gets local_length
3, R = 1, core 0's extra element is flat index 9, and cores 1 and 2 get no
extra element. -/
theorem partition_spec (n C i : ℕ) (hC : 0 < C) (hiC : i < C) (hCn : C ≤ n) :
    (partition n C i =
      { local_length := n / C
        local_offset := i * (n / C)
        has_extra_element := decide (i < n % C)
        extra_index := n / C * C + i }) ∧
    n - n / C * C = n % C ∧
    (partition 10 3 0 =
      { local_length := 3, local_offset := 0, has_extra_element := true, extra_index := 9 }) ∧
    (partition 10 3 1 =
      { local_length := 3, local_offset := 3, has_extra_element := false, extra_index := 10 }) ∧
    (partition 10 3 2 =
      { local_length := 3, local_offset := 6, has_extra_element := false, extra_index := 11 }) := by
  have hdm : C * (n / C) + n % C = n := Nat.div_add_mod n C
  have hcomm : C * (n / C) = n / C * C := Nat.mul_comm C (n / C)
  have h2 : n - n / C * C = n % C := by omega
  refine ⟨?_, h2, by decide, by decide, by decide⟩
  simp only [partition]
  rw [h2, hcomm]

/-- Witness for partition_spec at n = 10, C = 3, i = 0. -/
theorem partition_spec_witness :
    0 < 3 ∧ 0 < 3 ∧ 3 ≤ 10 ∧
    ((partition 10 3 0 =
      { local_length := 10 / 3
        local_offset := 0 * (10 / 3)
        has_extra_element := decide (0 < 10 % 3)
        extra_index := 10 / 3 * 3 + 0 }) ∧
    10 - 10 / 3 * 3 = 10 % 3 ∧
    (partition 10 3 0 =
      { local_length := 3, local_offset := 0, has_extra_element := true, extra_index := 9 }) ∧
    (partition 10 3 1 =
      { local_length := 3, local_offset := 3, has_extra_element := false, extra_index := 10 }) ∧
    (partition 10 3 2 =
      { local_length := 3, local_offset := 6, has_extra_element := false, extra_index := 11 })) :=
  ⟨by decide, by decide, by decide,
    partition_spec 10 3 0 (by decide) (by decide) (by decide)⟩

theorem mem_assignedIndices (n C i k : ℕ) :
    k ∈ assignedIndices n C i ↔
      (i * (n / C) ≤ k ∧ k < i * (n / C) + n / C) ∨
        (i < n - n / C * C ∧ k = C * (n / C) + i) := by
  unfold assignedIndices partition
  by_cases h : i < n - n / C * C
  · simp [h]
  · simp [h]

/-- Claim C3: for C ≤ n the union over cores 0..C-1 of the assigned index sets
(contiguous local range plus the optional extra index) is exactly
{0, ..., n-1}, and the sets of distinct cores are pairwise disjoint, so every
index is covered exactly once. -/
theorem partition_coverage (n C : ℕ) (hC : 0 < C) (hCn : C ≤ n) :
    (Finset.range C).biUnion (assignedIndices n C) = Finset.range n ∧
    ∀ i < C, ∀ j < C, i ≠ j →
      Disjoint (assignedIndices n C i) (assignedIndices n C j) := by
  have hL1 : 1 ≤ n / C := (Nat.one_le_div_iff hC).mpr hCn
  have hdm : n / C * C + n % C = n := by
    rw [Nat.mul_comm]; exact Nat.div_add_mod n C
  have hmodC : n % C < C := Nat.mod_lt n hC
  have hCL : C * (n / C) = n / C * C := Nat.mul_comm C (n / C)
  constructor
  · ext k
    simp only [Finset.mem_biUnion, Finset.mem_range, mem_assignedIndices]
    constructor
    · rintro ⟨i, hi, hcase⟩
      rcases hcase with ⟨h1, h2⟩ | ⟨h1, h2⟩
      · have h4 : (i + 1) * (n / C) ≤ C * (n / C) :=
          Nat.mul_le_mul_right (n / C) (by omega)
        rw [Nat.succ_mul] at h4
        omega
      · omega
    · intro hk
      by_cases hsmall : k < n / C * C
      · refine ⟨k / (n / C), ?_, Or.inl ⟨?_, ?_⟩⟩
        · rw [Nat.div_lt_iff_lt_mul (by omega)]
          omega
        · exact Nat.div_mul_le_self k (n / C)
        · have hmod : k % (n / C) < n / C := Nat.mod_lt k (by omega)
          have hrec : k / (n / C) * (n / C) + k % (n / C) = k := by
            rw [Nat.mul_comm]; exact Nat.div_add_mod k (n / C)
          omega
      · exact ⟨k - n / C * C, by omega, Or.inr ⟨by omega, by omega⟩⟩
  · intro i hi j hj hij
    rw [Finset.disjoint_left]
    intro k hki hkj
    rw [mem_assignedIndices] at hki hkj
    have hic : (i + 1) * (n / C) ≤ C * (n / C) :=
      Nat.mul_le_mul_right (n / C) (by omega)
    have hjc : (j + 1) * (n / C) ≤ C * (n / C) :=
      Nat.mul_le_mul_right (n / C) (by omega)
    rw [Nat.succ_mul] at hic hjc
    rcases hki with ⟨hi1, hi2⟩ | ⟨hi1, hi2⟩ <;>
      rcases hkj with ⟨hj1, hj2⟩ | ⟨hj1, hj2⟩
    · rcases Nat.lt_or_ge i j with hlt | hge
      · have : (i + 1) * (n / C) ≤ j * (n / C) :=
          Nat.mul_le_mul_right (n / C) (by omega)
        rw [Nat.succ_mul] at this
        omega
      · have hlt : j < i := by omega
        have : (j + 1) * (n / C) ≤ i * (n / C) :=
          Nat.mul_le_mul_right (n / C) (by omega)
        rw [Nat.succ_mul] at this
        omega
    · omega
    · omega
    · omega

/-- Witness for partition_coverage at n = 10, C = 3. -/
theorem partition_coverage_witness :
    0 < 3 ∧ 3 ≤ 10 ∧
    ((Finset.range 3).biUnion (assignedIndices 10 3) = Finset.range 10 ∧
      ∀ i < 3, ∀ j < 3, i ≠ j →
        Disjoint (assignedIndices 10 3 i) (assignedIndices 10 3 j)) :=
  ⟨by decide, by decide, partition_coverage 10 3 (by decide) (by decide)⟩

theorem loopMap_zero_apply {α β : Type} (f : α → β) (arr : ℕ → α) (n : ℕ)
    (result : ℕ → β) (k : ℕ) :
    loopMap f arr 0 n result k = if k < n then f (arr k) else result k := by
  rw [loopMap_apply]
  by_cases h : k < n
  · rw [if_pos ⟨Nat.zero_le k, by omega⟩, if_pos h]
  · rw [if_neg (by omega), if_neg h]

theorem sin_parallel_apply_mem {α : Type} (f : α → α) (C i : ℕ) (arr : ℕ → α)
    (n : ℕ) (result : ℕ → α) (k : ℕ) (hk : k ∈ assignedIndices n C i) :
    (sin_parallel f C i arr n result).1 k = f (arr k) := by
  rw [mem_assignedIndices] at hk
  simp only [sin_parallel]
  rcases hk with ⟨h1, h2⟩ | ⟨h1, h2⟩
  · by_cases hx : i < n - n / C * C
    · rw [if_pos hx, Function.update_apply]
      by_cases hk2 : k = C * (n / C) + i
      · subst hk2
        rw [if_pos rfl]
      · rw [if_neg hk2, loopMap_apply, if_pos ⟨h1, h2⟩]
    · rw [if_neg hx, loopMap_apply, if_pos ⟨h1, h2⟩]
  · subst h2
    rw [if_pos h1, Function.update_apply, if_pos rfl]

theorem sin_parallel_apply_not_mem {α : Type} (f : α → α) (C i : ℕ) (arr : ℕ → α)
    (n : ℕ) (result : ℕ → α) (k : ℕ) (hk : k ∉ assignedIndices n C i) :
    (sin_parallel f C i arr n result).1 k = result k := by
  rw [mem_assignedIndices] at hk
  have hA : ¬(i * (n / C) ≤ k ∧ k < i * (n / C) + n / C) := fun h => hk (Or.inl h)
  have hB : ¬(i < n - n / C * C ∧ k = C * (n / C) + i) := fun h => hk (Or.inr h)
  simp only [sin_parallel]
  by_cases hx : i < n - n / C * C
  · rw [if_pos hx, Function.update_apply, if_neg (fun he => hB ⟨hx, he⟩),
      loopMap_apply, if_neg hA]
  · rw [if_neg hx, loopMap_apply, if_neg hA]

theorem sin_baseline_lookup_table_apply (arr : ℕ → ℚ) (n : ℕ) (result : ℕ → ℚ)
    (table : ℤ → ℚ) (T k : ℕ) :
    (sin_baseline_lookup_table arr n result table T).1 k =
      if k < n then table (cIntCast (arr k * ((T : ℚ) / M_PI * 2)))
      else result k := by
  simp only [sin_baseline_lookup_table, loopMap_apply]
  by_cases h : k < n
  · rw [if_pos ⟨Nat.zero_le k, by omega⟩, if_pos h]
  · rw [if_neg (by omega), if_neg h]

/-- Claim C4: for every embedded strategy, the value written at an index k of
the strategy's assigned range depends only on the input at k (plus the
read-only table for the lookup variants, and the exp routine for the sigmoid
variants), two runs whose inputs agree at k produce the same output at k, and
no output position outside the assigned range is written: the whole-array
strategies (sin_baseline, sin_ssr, sin_omp, sin_baseline_lookup_table,
sigmoid_baseline, sigmoid_ssr) write exactly the indices below n, the
parallel variants (sin_parallel, sin_ssr_parallel) write exactly their
core-local assigned set, and the two no-op bodies (sin_ssr_lookup_table,
sigmoid_ssr_frep) write nothing. -/
theorem strategies_elementwise_pure {α : Type} (f : α → α) (C i : ℕ)
    (arr arr2 : ℕ → α) (n : ℕ) (result : ℕ → α)
    (qarr qarr2 : ℕ → ℚ) (qresult : ℕ → ℚ) (table : ℤ → ℚ) (T : ℕ)
    (expf : ℚ → FP) (fresult : ℕ → FP) (k : ℕ)
    (harr : arr k = arr2 k) (hq : qarr k = qarr2 k) :
    (k < n → (sin_baseline f arr n result).1 k = f (arr k)) ∧
    (¬k < n → (sin_baseline f arr n result).1 k = result k) ∧
    (sin_baseline f arr n result).1 k = (sin_baseline f arr2 n result).1 k ∧
    (k < n → (sin_ssr f arr n result).1 k = f (arr k)) ∧
    (¬k < n → (sin_ssr f arr n result).1 k = result k) ∧
    (sin_ssr f arr n result).1 k = (sin_ssr f arr2 n result).1 k ∧
    (k < n → (sin_omp f arr n result).1 k = f (arr k)) ∧
    (¬k < n → (sin_omp f arr n result).1 k = result k) ∧
    (sin_omp f arr n result).1 k = (sin_omp f arr2 n result).1 k ∧
    (k ∈ assignedIndices n C i →
      (sin_parallel f C i arr n result).1 k = f (arr k)) ∧
    (k ∉ assignedIndices n C i →
      (sin_parallel f C i arr n result).1 k = result k) ∧
    (sin_parallel f C i arr n result).1 k =
      (sin_parallel f C i arr2 n result).1 k ∧
    (k ∈ assignedIndices n C i →
      (sin_ssr_parallel f C i arr n result).1 k = f (arr k)) ∧
    (k ∉ assignedIndices n C i →
      (sin_ssr_parallel f C i arr n result).1 k = result k) ∧
    (sin_ssr_parallel f C i arr n result).1 k =
      (sin_ssr_parallel f C i arr2 n result).1 k ∧
    (k < n → (sin_baseline_lookup_table qarr n qresult table T).1 k =
      table (cIntCast (qarr k * ((T : ℚ) / M_PI * 2)))) ∧
    (¬k < n →
      (sin_baseline_lookup_table qarr n qresult table T).1 k = qresult k) ∧
    (sin_baseline_lookup_table qarr n qresult table T).1 k =
      (sin_baseline_lookup_table qarr2 n qresult table T).1 k ∧
    (sin_ssr_lookup_table qarr n qresult table T).1 k = qresult k ∧
    (sin_ssr_lookup_table qarr n qresult table T).1 k =
      (sin_ssr_lookup_table qarr2 n qresult table T).1 k ∧
    (k < n → (sigmoid_baseline expf qarr n fresult).1 k =
      sigmoid_baseline_elem (expf (-qarr k))) ∧
    (¬k < n → (sigmoid_baseline expf qarr n fresult).1 k = fresult k) ∧
    (sigmoid_baseline expf qarr n fresult).1 k =
      (sigmoid_baseline expf qarr2 n fresult).1 k ∧
    (k < n → (sigmoid_ssr expf qarr n fresult).1 k =
      sigmoid_ssr_elem (expf (-qarr k))) ∧
    (¬k < n → (sigmoid_ssr expf qarr n fresult).1 k = fresult k) ∧
    (sigmoid_ssr expf qarr n fresult).1 k =
      (sigmoid_ssr expf qarr2 n fresult).1 k ∧
    (sigmoid_ssr_frep expf qarr n fresult).1 k = fresult k ∧
    (sigmoid_ssr_frep expf qarr n fresult).1 k =
      (sigmoid_ssr_frep expf qarr2 n fresult).1 k := by
  have hbase : ∀ a : ℕ → α,
      (sin_baseline f a n result).1 k = if k < n then f (a k) else result k :=
    fun a => loopMap_zero_apply f a n result k
  have hssr : ∀ a : ℕ → α,
      (sin_ssr f a n result).1 k = if k < n then f (a k) else result k :=
    fun a => loopMap_zero_apply f a n result k
  have homp : ∀ a : ℕ → α,
      (sin_omp f a n result).1 k = if k < n then f (a k) else result k :=
    fun a => loopMap_zero_apply f a n result k
  have hpar_eq : ∀ a : ℕ → α,
      sin_ssr_parallel f C i a n result = sin_parallel f C i a n result :=
    fun _ => rfl
  have hlt : ∀ a : ℕ → ℚ,
      (sin_baseline_lookup_table a n qresult table T).1 k =
        if k < n then table (cIntCast (a k * ((T : ℚ) / M_PI * 2)))
        else qresult k :=
    fun a => sin_baseline_lookup_table_apply a n qresult table T k
  have hsigb : ∀ a : ℕ → ℚ,
      (sigmoid_baseline expf a n fresult).1 k =
        if k < n then sigmoid_baseline_elem (expf (-a k)) else fresult k :=
    fun a => loopMap_zero_apply (fun x => sigmoid_baseline_elem (expf (-x))) a n
      fresult k
  have hsigs : ∀ a : ℕ → ℚ,
      (sigmoid_ssr expf a n fresult).1 k =
        if k < n then sigmoid_ssr_elem (expf (-a k)) else fresult k :=
    fun a => loopMap_zero_apply (fun x => sigmoid_ssr_elem (expf (-x))) a n
      fresult k
  exact ⟨fun hn => by rw [hbase arr, if_pos hn],
    fun hn => by rw [hbase arr, if_neg hn],
    by rw [hbase arr, hbase arr2, harr],
    fun hn => by rw [hssr arr, if_pos hn],
    fun hn => by rw [hssr arr, if_neg hn],
    by rw [hssr arr, hssr arr2, harr],
    fun hn => by rw [homp arr, if_pos hn],
    fun hn => by rw [homp arr, if_neg hn],
    by rw [homp arr, homp arr2, harr],
    fun hk => sin_parallel_apply_mem f C i arr n result k hk,
    fun hk => sin_parallel_apply_not_mem f C i arr n result k hk,
    by
      by_cases hk : k ∈ assignedIndices n C i
      · rw [sin_parallel_apply_mem f C i arr n result k hk,
          sin_parallel_apply_mem f C i arr2 n result k hk, harr]
      · rw [sin_parallel_apply_not_mem f C i arr n result k hk,
          sin_parallel_apply_not_mem f C i arr2 n result k hk],
    fun hk => by
      rw [hpar_eq arr]
      exact sin_parallel_apply_mem f C i arr n result k hk,
    fun hk => by
      rw [hpar_eq arr]
      exact sin_parallel_apply_not_mem f C i arr n result k hk,
    by
      rw [hpar_eq arr, hpar_eq arr2]
      by_cases hk : k ∈ assignedIndices n C i
      · rw [sin_parallel_apply_mem f C i arr n result k hk,
          sin_parallel_apply_mem f C i arr2 n result k hk, harr]
      · rw [sin_parallel_apply_not_mem f C i arr n result k hk,
          sin_parallel_apply_not_mem f C i arr2 n result k hk],
    fun hn => by rw [hlt qarr, if_pos hn],
    fun hn => by rw [hlt qarr, if_neg hn],
    by rw [hlt qarr, hlt qarr2, hq],
    rfl,
    rfl,
    fun hn => by rw [hsigb qarr, if_pos hn],
    fun hn => by rw [hsigb qarr, if_neg hn],
    by rw [hsigb qarr, hsigb qarr2, hq],
    fun hn => by rw [hsigs qarr, if_pos hn],
    fun hn => by rw [hsigs qarr, if_neg hn],
    by rw [hsigs qarr, hsigs qarr2, hq],
    rfl,
    rfl⟩

/-- Witness for strategies_elementwise_pure at concrete inputs (all ten
strategies, k = 0, n = 10, core 0 of 3). -/
theorem strategies_elementwise_pure_witness :
    (0 < 10 → (sin_baseline (fun x : ℚ => x + 1) (fun _ => 5) 10 (fun _ => 0)).1 0 =
      (5 : ℚ) + 1) ∧
    (¬0 < 10 → (sin_baseline (fun x : ℚ => x + 1) (fun _ => 5) 10 (fun _ => 0)).1 0 =
      (0 : ℚ)) ∧
    (sin_baseline (fun x : ℚ => x + 1) (fun _ => 5) 10 (fun _ => 0)).1 0 =
      (sin_baseline (fun x : ℚ => x + 1) (fun _ => 5) 10 (fun _ => 0)).1 0 ∧
    (0 < 10 → (sin_ssr (fun x : ℚ => x + 1) (fun _ => 5) 10 (fun _ => 0)).1 0 =
      (5 : ℚ) + 1) ∧
    (¬0 < 10 → (sin_ssr (fun x : ℚ => x + 1) (fun _ => 5) 10 (fun _ => 0)).1 0 =
      (0 : ℚ)) ∧
    (sin_ssr (fun x : ℚ => x + 1) (fun _ => 5) 10 (fun _ => 0)).1 0 =
      (sin_ssr (fun x : ℚ => x + 1) (fun _ => 5) 10 (fun _ => 0)).1 0 ∧
    (0 < 10 → (sin_omp (fun x : ℚ => x + 1) (fun _ => 5) 10 (fun _ => 0)).1 0 =
      (5 : ℚ) + 1) ∧
    (¬0 < 10 → (sin_omp (fun x : ℚ => x + 1) (fun _ => 5) 10 (fun _ => 0)).1 0 =
      (0 : ℚ)) ∧
    (sin_omp (fun x : ℚ => x + 1) (fun _ => 5) 10 (fun _ => 0)).1 0 =
      (sin_omp (fun x : ℚ => x + 1) (fun _ => 5) 10 (fun _ => 0)).1 0 ∧
    (0 ∈ assignedIndices 10 3 0 →
      (sin_parallel (fun x : ℚ => x + 1) 3 0 (fun _ => 5) 10 (fun _ => 0)).1 0 =
        (5 : ℚ) + 1) ∧
    (0 ∉ assignedIndices 10 3 0 →
      (sin_parallel (fun x : ℚ => x + 1) 3 0 (fun _ => 5) 10 (fun _ => 0)).1 0 =
        (0 : ℚ)) ∧
    (sin_parallel (fun x : ℚ => x + 1) 3 0 (fun _ => 5) 10 (fun _ => 0)).1 0 =
      (sin_parallel (fun x : ℚ => x + 1) 3 0 (fun _ => 5) 10 (fun _ => 0)).1 0 ∧
    (0 ∈ assignedIndices 10 3 0 →
      (sin_ssr_parallel (fun x : ℚ => x + 1) 3 0 (fun _ => 5) 10 (fun _ => 0)).1 0 =
        (5 : ℚ) + 1) ∧
    (0 ∉ assignedIndices 10 3 0 →
      (sin_ssr_parallel (fun x : ℚ => x + 1) 3 0 (fun _ => 5) 10 (fun _ => 0)).1 0 =
        (0 : ℚ)) ∧
    (sin_ssr_parallel (fun x : ℚ => x + 1) 3 0 (fun _ => 5) 10 (fun _ => 0)).1 0 =
      (sin_ssr_parallel (fun x : ℚ => x + 1) 3 0 (fun _ => 5) 10 (fun _ => 0)).1 0 ∧
    (0 < 10 →
      (sin_baseline_lookup_table (fun _ => 2) 10 (fun _ => 0) (fun z => (z : ℚ)) 4).1 0 =
        ((cIntCast ((2 : ℚ) * (((4 : ℕ) : ℚ) / M_PI * 2)) : ℤ) : ℚ)) ∧
    (¬0 < 10 →
      (sin_baseline_lookup_table (fun _ => 2) 10 (fun _ => 0) (fun z => (z : ℚ)) 4).1 0 =
        (0 : ℚ)) ∧
    (sin_baseline_lookup_table (fun _ => 2) 10 (fun _ => 0) (fun z => (z : ℚ)) 4).1 0 =
      (sin_baseline_lookup_table (fun _ => 2) 10 (fun _ => 0) (fun z => (z : ℚ)) 4).1 0 ∧
    (sin_ssr_lookup_table (fun _ => 2) 10 (fun _ => 0) (fun z => (z : ℚ)) 4).1 0 =
      (0 : ℚ) ∧
    (sin_ssr_lookup_table (fun _ => 2) 10 (fun _ => 0) (fun z => (z : ℚ)) 4).1 0 =
      (sin_ssr_lookup_table (fun _ => 2) 10 (fun _ => 0) (fun z => (z : ℚ)) 4).1 0 ∧
    (0 < 10 →
      (sigmoid_baseline (fun _ => FP.fin 1) (fun _ => 2) 10 (fun _ => FP.fin 0)).1 0 =
        sigmoid_baseline_elem (FP.fin 1)) ∧
    (¬0 < 10 →
      (sigmoid_baseline (fun _ => FP.fin 1) (fun _ => 2) 10 (fun _ => FP.fin 0)).1 0 =
        FP.fin 0) ∧
    (sigmoid_baseline (fun _ => FP.fin 1) (fun _ => 2) 10 (fun _ => FP.fin 0)).1 0 =
      (sigmoid_baseline (fun _ => FP.fin 1) (fun _ => 2) 10 (fun _ => FP.fin 0)).1 0 ∧
    (0 < 10 →
      (sigmoid_ssr (fun _ => FP.fin 1) (fun _ => 2) 10 (fun _ => FP.fin 0)).1 0 =
        sigmoid_ssr_elem (FP.fin 1)) ∧
    (¬0 < 10 →
      (sigmoid_ssr (fun _ => FP.fin 1) (fun _ => 2) 10 (fun _ => FP.fin 0)).1 0 =
        FP.fin 0) ∧
    (sigmoid_ssr (fun _ => FP.fin 1) (fun _ => 2) 10 (fun _ => FP.fin 0)).1 0 =
      (sigmoid_ssr (fun _ => FP.fin 1) (fun _ => 2) 10 (fun _ => FP.fin 0)).1 0 ∧
    (sigmoid_ssr_frep (fun _ => FP.fin 1) (fun _ => 2) 10 (fun _ => FP.fin 0)).1 0 =
      FP.fin 0 ∧
    (sigmoid_ssr_frep (fun _ => FP.fin 1) (fun _ => 2) 10 (fun _ => FP.fin 0)).1 0 =
      (sigmoid_ssr_frep (fun _ => FP.fin 1) (fun _ => 2) 10 (fun _ => FP.fin 0)).1 0 := by
  exact strategies_elementwise_pure (fun x : ℚ => x + 1) 3 0 (fun _ => 5) (fun _ => 5)
    10 (fun _ => 0) (fun _ => 2) (fun _ => 2) (fun _ => 0) (fun z => (z : ℚ)) 4
    (fun _ => FP.fin 1) (fun _ => FP.fin 0) 0 rfl rfl

/-- Claim C5 counterexample: with a table of size 1 whose entry at index z is
the rational z, and input value 2, the code's scalar lookup (whose factor is
lookup_table_size / M_PI * 2) reads table[1], while the claim's formula
(domain_scale = size / (2π), index = floor) reads table[0]; the two outputs
differ. -/
theorem sin_lookup_scale_counterexample :
    (sin_baseline_lookup_table (fun _ => 2) 1 (fun _ => 0) (fun z => (z : ℚ)) 1).1 0 ≠
      sin_lookup_table_specModel (fun _ => 2) 1 (fun _ => 0) (fun z => (z : ℚ)) 1 0 := by
  have h1 : cIntCast ((2 : ℚ) * (M_PI⁻¹ * 2)) = 1 := by
    rw [cIntCast, if_pos (by norm_num [M_PI])]
    rw [Int.floor_eq_iff]
    norm_num [M_PI]
  have h2 : ⌊(2 : ℚ) * (M_PI⁻¹ * 2⁻¹)⌋ = 0 := by
    rw [Int.floor_eq_iff]
    norm_num [M_PI]
  simp [sin_baseline_lookup_table_apply, sin_lookup_table_specModel,
    loopMap_apply, h1, h2]

/-- Claim C5 (amended): the scalar lookup strategy computes
output[i] = table[(int)(input[i] * factor)] for every i < n, where
factor = lookup_table_size / M_PI * 2 (that is, 2·size/π — four times the
claimed size/(2π)), and the index is the C int cast, truncation toward zero,
which coincides with floor only for non-negative scaled inputs. -/
theorem sin_lookup_table_formula (arr : ℕ → ℚ) (n : ℕ) (result : ℕ → ℚ)
    (table : ℤ → ℚ) (T k : ℕ) (hk : k < n) :
    (sin_baseline_lookup_table arr n result table T).1 k =
      table (cIntCast (arr k * ((T : ℚ) / M_PI * 2))) := by
  rw [sin_baseline_lookup_table_apply, if_pos hk]

/-- Witness for sin_lookup_table_formula at k = 0, n = 1, T = 1. -/
theorem sin_lookup_table_formula_witness :
    0 < 1 ∧
    (sin_baseline_lookup_table (fun _ => 2) 1 (fun _ => 0) (fun z => (z : ℚ)) 1).1 0 =
      ((cIntCast ((2 : ℚ) * (((1 : ℕ) : ℚ) / M_PI * 2)) : ℤ) : ℚ) :=
  ⟨by decide,
    sin_lookup_table_formula (fun _ => 2) 1 (fun _ => 0) (fun z => (z : ℚ)) 1 0
      (by decide)⟩

/-- Claim C6 (code evaluation): sin_ssr, sigmoid_ssr and sin_ssr_parallel
configure each stream descriptor with exactly the number of consuming or
producing instructions their loops issue, but sin_ssr_omp's write descriptor
is always one element longer than the number of produce instructions issued;
at n = 8 with 2 worker cores the write descriptor length is 5 while the loop
issues only 4 produces. -/
theorem ssr_stream_lengths :
    (∀ n : ℕ,
      (sin_ssr_trace n).read_len =
        (sin_ssr_trace n).iterations * (sin_ssr_trace n).consumes_per_iter ∧
      (sin_ssr_trace n).write_len =
        (sin_ssr_trace n).iterations * (sin_ssr_trace n).produces_per_iter) ∧
    (∀ n : ℕ,
      (sigmoid_ssr_trace n).read_len =
        (sigmoid_ssr_trace n).iterations * (sigmoid_ssr_trace n).consumes_per_iter ∧
      (sigmoid_ssr_trace n).write_len =
        (sigmoid_ssr_trace n).iterations * (sigmoid_ssr_trace n).produces_per_iter) ∧
    (∀ n C : ℕ,
      (sin_ssr_parallel_trace n C).read_len =
        (sin_ssr_parallel_trace n C).iterations *
          (sin_ssr_parallel_trace n C).consumes_per_iter ∧
      (sin_ssr_parallel_trace n C).write_len =
        (sin_ssr_parallel_trace n C).iterations *
          (sin_ssr_parallel_trace n C).produces_per_iter) ∧
    (∀ n C : ℕ,
      (sin_ssr_omp_trace n C).write_len =
        (sin_ssr_omp_trace n C).iterations *
          (sin_ssr_omp_trace n C).produces_per_iter + 1) ∧
    (sin_ssr_omp_trace 8 2).write_len = 5 ∧
    (sin_ssr_omp_trace 8 2).iterations * (sin_ssr_omp_trace 8 2).produces_per_iter = 4 ∧
    (sin_ssr_omp_trace 8 2).write_len ≠
      (sin_ssr_omp_trace 8 2).iterations * (sin_ssr_omp_trace 8 2).produces_per_iter := by
  refine ⟨?_, ?_, ?_, ?_, by decide, by decide, by decide⟩
  · intro n
    simp [sin_ssr_trace]
  · intro n
    simp [sigmoid_ssr_trace]
  · intro n C
    simp [sin_ssr_parallel_trace]
  · intro n C
    simp [sin_ssr_omp_trace]

/-- Claim C7: the streaming lookup-table variant is non-functional dead code:
for every input, initial output buffer and table, the call leaves the result
buffer unchanged and its outcome does not depend on the table at all (no
table lookup is performed). -/
theorem sin_ssr_lookup_table_dead_code (arr : ℕ → ℚ) (n : ℕ) (result : ℕ → ℚ)
    (table table2 : ℤ → ℚ) (T : ℕ) :
    (sin_ssr_lookup_table arr n result table T).1 = result ∧
    sin_ssr_lookup_table arr n result table T =
      sin_ssr_lookup_table arr n result table2 T :=
  ⟨rfl, rfl⟩

/-- Claim C8: the stream-offloaded sigmoid fabricates the constant 1 as
exp(-x)/exp(-x), so its element result equals the baseline's 1/(1+exp(-x))
whenever exp(-x) is finite and nonzero, while whenever exp(-x) evaluates to 0
(large positive input) or +infinity (large negative input) the stream variant
stores NaN where the baseline stores the saturated value 1 or 0. -/
theorem sigmoid_ssr_nan_behavior (expf : ℚ → FP) (arr : ℕ → ℚ) (n : ℕ)
    (result : ℕ → FP) (i : ℕ) (hi : i < n) :
    (∀ q : ℚ, q ≠ 0 → expf (-arr i) = FP.fin q →
      (sigmoid_ssr expf arr n result).1 i =
        (sigmoid_baseline expf arr n result).1 i) ∧
    (expf (-arr i) = FP.fin 0 →
      (sigmoid_ssr expf arr n result).1 i = FP.nan ∧
      (sigmoid_baseline expf arr n result).1 i = FP.fin 1) ∧
    (expf (-arr i) = FP.inf →
      (sigmoid_ssr expf arr n result).1 i = FP.nan ∧
      (sigmoid_baseline expf arr n result).1 i = FP.fin 0) := by
  have hs : (sigmoid_ssr expf arr n result).1 i =
      sigmoid_ssr_elem (expf (-arr i)) := by
    simp only [sigmoid_ssr, loopMap_apply]
    rw [if_pos ⟨Nat.zero_le i, by omega⟩]
  have hb : (sigmoid_baseline expf arr n result).1 i =
      sigmoid_baseline_elem (expf (-arr i)) := by
    simp only [sigmoid_baseline, loopMap_apply]
    rw [if_pos ⟨Nat.zero_le i, by omega⟩]
  rw [hs, hb]
  refine ⟨?_, ?_, ?_⟩
  · intro q hq0 hq
    rw [hq]
    have he : fdiv (FP.fin q) (FP.fin q) = FP.fin 1 := by
      simp only [fdiv, if_neg hq0, div_self hq0]
    simp only [sigmoid_ssr_elem, sigmoid_baseline_elem, he]
  · intro hq
    rw [hq]
    constructor
    · simp [sigmoid_ssr_elem, fdiv, fadd]
    · simp [sigmoid_baseline_elem, fdiv, fadd]
  · intro hq
    rw [hq]
    constructor
    · simp [sigmoid_ssr_elem, fdiv, fadd]
    · simp [sigmoid_baseline_elem, fdiv, fadd]

/-- Witness for sigmoid_ssr_nan_behavior with expf constantly fin 1, n = 1,
i = 0 (the finite-nonzero branch applies at q = 1). -/
theorem sigmoid_ssr_nan_behavior_witness :
    0 < 1 ∧
    ((∀ q : ℚ, q ≠ 0 → FP.fin 1 = FP.fin q →
      (sigmoid_ssr (fun _ => FP.fin 1) (fun _ => 0) 1 (fun _ => FP.fin 0)).1 0 =
        (sigmoid_baseline (fun _ => FP.fin 1) (fun _ => 0) 1 (fun _ => FP.fin 0)).1 0) ∧
    (FP.fin 1 = FP.fin 0 →
      (sigmoid_ssr (fun _ => FP.fin 1) (fun _ => 0) 1 (fun _ => FP.fin 0)).1 0 = FP.nan ∧
      (sigmoid_baseline (fun _ => FP.fin 1) (fun _ => 0) 1 (fun _ => FP.fin 0)).1 0 =
        FP.fin 1) ∧
    (FP.fin 1 = FP.inf →
      (sigmoid_ssr (fun _ => FP.fin 1) (fun _ => 0) 1 (fun _ => FP.fin 0)).1 0 = FP.nan ∧
      (sigmoid_baseline (fun _ => FP.fin 1) (fun _ => 0) 1 (fun _ => FP.fin 0)).1 0 =
        FP.fin 0)) :=
  ⟨Nat.zero_lt_one,
    sigmoid_ssr_nan_behavior (fun _ => FP.fin 1) (fun _ => 0) 1 (fun _ => FP.fin 0) 0
      Nat.zero_lt_one⟩

/-- Claim C9 (code evaluation): every embedded strategy returns the fixed
status some 0 except sin_baseline_lookup_table, which is declared int but has
no return statement and therefore yields no status value at all (modelled as
none); in particular its status differs from the fixed value 0. -/
theorem strategy_status_values :
    (∀ (f : ℚ → ℚ) (arr : ℕ → ℚ) (n : ℕ) (result : ℕ → ℚ),
      (sin_baseline f arr n result).2 = some 0 ∧
      (sin_ssr f arr n result).2 = some 0 ∧
      (sin_omp f arr n result).2 = some 0) ∧
    (∀ (f : ℚ → ℚ) (C i : ℕ) (arr : ℕ → ℚ) (n : ℕ) (result : ℕ → ℚ),
      (sin_parallel f C i arr n result).2 = some 0 ∧
      (sin_ssr_parallel f C i arr n result).2 = some 0) ∧
    (∀ (expf : ℚ → FP) (arr : ℕ → ℚ) (n : ℕ) (result : ℕ → FP),
      (sigmoid_baseline expf arr n result).2 = some 0 ∧
      (sigmoid_ssr expf arr n result).2 = some 0 ∧
      (sigmoid_ssr_frep expf arr n result).2 = some 0) ∧
    (∀ (arr : ℕ → ℚ) (n : ℕ) (result : ℕ → ℚ) (table : ℤ → ℚ) (T : ℕ),
      (sin_ssr_lookup_table arr n result table T).2 = some 0 ∧
      (sin_baseline_lookup_table arr n result table T).2 = none) ∧
    (sin_baseline_lookup_table (fun _ => 0) 0 (fun _ => 0) (fun _ => 0) 1).2 ≠
      some 0 := by
  refine ⟨fun f arr n result => ⟨rfl, rfl, rfl⟩,
    fun f C i arr n result => ⟨rfl, rfl⟩,
    fun expf arr n result => ⟨rfl, rfl, rfl⟩,
    fun arr n result table T => ⟨rfl, rfl⟩,
    fun h => Option.noConfusion h⟩

/-- Claim C10 (code evaluation): in the memory-tier benchmark both timed
loops copy from memory_x, the main-memory-resident buffer: the second timed
loop's output is independent of the L1-allocated buffer's contents, and at
every copied index k < size it equals memory_x's value k - 20, identical to
the first timed loop's output. -/
theorem benchmark_l1_loop_reads_main_memory (size : ℕ)
    (mt mf l1 l1' : ℕ → ℚ) (k : ℕ) (hk : k < size) :
    (benchmark_mem_versus_l1 size mt mf l1).2 =
      (benchmark_mem_versus_l1 size mt mf l1').2 ∧
    (benchmark_mem_versus_l1 size mt mf l1).2 k = (k : ℚ) - 20 ∧
    (benchmark_mem_versus_l1 size mt mf l1).2 k =
      (benchmark_mem_versus_l1 size mt mf l1).1 k := by
  refine ⟨rfl, ?_, ?_⟩
  · simp only [benchmark_mem_versus_l1, loopMap_apply]
    rw [if_pos ⟨Nat.zero_le k, by omega⟩]
  · simp only [benchmark_mem_versus_l1, loopMap_apply]
    rw [if_pos ⟨Nat.zero_le k, by omega⟩, if_pos ⟨Nat.zero_le k, by omega⟩]

/-- Witness for benchmark_l1_loop_reads_main_memory at size = 4, k = 1, with
two different L1 buffer contents. -/
theorem benchmark_l1_loop_witness :
    1 < 4 ∧
    ((benchmark_mem_versus_l1 4 (fun _ => 0) (fun _ => 0) (fun _ => 42)).2 =
      (benchmark_mem_versus_l1 4 (fun _ => 0) (fun _ => 0) (fun _ => 7)).2 ∧
    (benchmark_mem_versus_l1 4 (fun _ => 0) (fun _ => 0) (fun _ => 42)).2 1 =
      ((1 : ℕ) : ℚ) - 20 ∧
    (benchmark_mem_versus_l1 4 (fun _ => 0) (fun _ => 0) (fun _ => 42)).2 1 =
      (benchmark_mem_versus_l1 4 (fun _ => 0) (fun _ => 0) (fun _ => 42)).1 1) :=
  ⟨by decide,
    benchmark_l1_loop_reads_main_memory 4 (fun _ => 0) (fun _ => 0) (fun _ => 42)
      (fun _ => 7) 1 (by decide)⟩

end LMQ
